import Mathlib

/-!
# Verification of the SIR epidemic simulator (`src/sir_model_py.py`)

Shallow embedding of the two core functions of the repository:

* `sir_model`            — forward-Euler SIR integration (`sir_model_py.py`, lines 8–60);
* `simulate_intervention` — the same stepping logic with a transmission-rate
  switch at a configured time index (`sir_model_py.py`, lines 62–122).

Compartment values are embedded as rationals (exact arithmetic standing in
for the Python floats).  The Python functions raise an exception when
`timesteps < 1` (`np.zeros` rejects a negative length, and `S[0] = S0` is an
out-of-bounds write when the length is `0`); the embedding returns an
`Option`, with `none` for that failure.
-/

/-- One record of the output series: a row of the returned DataFrame
(`time`, `susceptible`, `infectious`, `recovered`). -/
structure SIRRecord where
  time : ℤ
  susceptible : ℚ
  infectious : ℚ
  recovered : ℚ
  deriving Repr, DecidableEq

/-- The three compartments held by the integration loop at one internal index. -/
structure SIRState where
  S : ℚ
  I : ℚ
  R : ℚ
  deriving Repr, DecidableEq

/-- Initial state of both simulators: `S0 = N - I0 - R0`, `I[0] = I0`,
`R[0] = R0` (lines 33, 39–41 and 92, 98–100). -/
def initState (N I0 R0 : ℚ) : SIRState :=
  { S := N - I0 - R0, I := I0, R := R0 }

/-- One forward-Euler step of the loop body (lines 45–50):
`new_infections = beta * S[t] * I[t] / N`, `new_recoveries = gamma * I[t]`,
then the three compartment updates. -/
def sirStep (beta gamma N : ℚ) (st : SIRState) : SIRState :=
  let new_infections := beta * st.S * st.I / N
  let new_recoveries := gamma * st.I
  { S := st.S - new_infections
    I := st.I + new_infections - new_recoveries
    R := st.R + new_recoveries }

/-- State at internal index `t` of `sir_model`'s loop: the loop
`for t in range(timesteps-1)` writes index `t+1` from index `t`, so the
array entry at index `t` is the `t`-fold iterate of `sirStep` from the
initial state. -/
def sirTraj (beta gamma N : ℚ) (init : SIRState) : ℕ → SIRState
  | 0 => init
  | t + 1 => sirStep beta gamma N (sirTraj beta gamma N init t)

/-- Transmission rate used by `simulate_intervention` at internal step `t`
(line 105): `current_beta = beta_before if t < intervention_time else beta_after`. -/
def currentBeta (beta_before beta_after : ℚ) (intervention_time : ℤ) (t : ℕ) : ℚ :=
  if (t : ℤ) < intervention_time then beta_before else beta_after

/-- State at internal index `t` of `simulate_intervention`'s loop
(lines 103–112): identical stepping, but step `t` uses `currentBeta … t`. -/
def intvTraj (beta_before beta_after : ℚ) (intervention_time : ℤ) (gamma N : ℚ)
    (init : SIRState) : ℕ → SIRState
  | 0 => init
  | t + 1 =>
      sirStep (currentBeta beta_before beta_after intervention_time t) gamma N
        (intvTraj beta_before beta_after intervention_time gamma N init t)

/-- Packaging of the arrays into the output rows (lines 53–58 and 115–120):
record `t` (for `t = 0 … timesteps-1`) carries `time = t + 1` and the three
array entries at index `t`. -/
def mkSeries (timesteps : ℕ) (traj : ℕ → SIRState) : List SIRRecord :=
  (List.range timesteps).map fun (t : ℕ) =>
    { time := (t : ℤ) + 1
      susceptible := (traj t).S
      infectious := (traj t).I
      recovered := (traj t).R }

/-- `sir_model(N, I0, R0, beta, gamma, timesteps)` (lines 8–60).
Returns `none` when `timesteps < 1` (the Python code raises there:
`np.zeros` rejects a negative length and `S[0] = S0` is out of bounds for
length `0`); otherwise the series of `timesteps` records. -/
def sir_model (N I0 R0 beta gamma : ℚ) (timesteps : ℤ) : Option (List SIRRecord) :=
  if timesteps < 1 then none
  else some (mkSeries timesteps.toNat (sirTraj beta gamma N (initState N I0 R0)))

/-- `simulate_intervention(N, I0, R0, beta_before, beta_after,
intervention_time, gamma, timesteps)` (lines 62–122). -/
def simulate_intervention (N I0 R0 beta_before beta_after : ℚ)
    (intervention_time : ℤ) (gamma : ℚ) (timesteps : ℤ) : Option (List SIRRecord) :=
  if timesteps < 1 then none
  else some (mkSeries timesteps.toNat
    (intvTraj beta_before beta_after intervention_time gamma N (initState N I0 R0)))

/-! ## Shared lemmas -/

/-- One step preserves the compartment sum: the same quantity is subtracted
from `S` as is added to `I`, and likewise between `I` and `R`. -/
lemma sirStep_sum (beta gamma N : ℚ) (st : SIRState) :
    (sirStep beta gamma N st).S + (sirStep beta gamma N st).I +
      (sirStep beta gamma N st).R = st.S + st.I + st.R := by
  simp [sirStep]; ring

lemma sirTraj_sum (beta gamma N I0 R0 : ℚ) (t : ℕ) :
    (sirTraj beta gamma N (initState N I0 R0) t).S +
      (sirTraj beta gamma N (initState N I0 R0) t).I +
      (sirTraj beta gamma N (initState N I0 R0) t).R = N := by
  induction t with
  | zero => simp [sirTraj, initState]; ring
  | succ t ih => rw [sirTraj, sirStep_sum]; exact ih

lemma intvTraj_sum (bb ba : ℚ) (it : ℤ) (gamma N I0 R0 : ℚ) (t : ℕ) :
    (intvTraj bb ba it gamma N (initState N I0 R0) t).S +
      (intvTraj bb ba it gamma N (initState N I0 R0) t).I +
      (intvTraj bb ba it gamma N (initState N I0 R0) t).R = N := by
  induction t with
  | zero => simp [intvTraj, initState]; ring
  | succ t ih => rw [intvTraj, sirStep_sum]; exact ih

lemma mkSeries_length (timesteps : ℕ) (traj : ℕ → SIRState) :
    (mkSeries timesteps traj).length = timesteps := by
  simp [mkSeries]

lemma mkSeries_get (timesteps : ℕ) (traj : ℕ → SIRState) (t : ℕ)
    (h : t < timesteps) :
    (mkSeries timesteps traj)[t]? =
      some { time := (t : ℤ) + 1, susceptible := (traj t).S,
             infectious := (traj t).I, recovered := (traj t).R } := by
  simp [mkSeries, List.getElem?_map, List.getElem?_range, h]

lemma mkSeries_congr (timesteps : ℕ) (f g : ℕ → SIRState)
    (h : ∀ t < timesteps, f t = g t) :
    mkSeries timesteps f = mkSeries timesteps g := by
  unfold mkSeries
  apply List.map_congr_left
  intro t ht
  rw [h t (List.mem_range.mp ht)]

/-- When every step below `n` uses the same rate `beta`, the intervention
trajectory at index `n` coincides with the plain trajectory. -/
lemma intvTraj_eq_sirTraj (bb ba beta : ℚ) (it : ℤ) (gamma N : ℚ)
    (init : SIRState) (n : ℕ)
    (h : ∀ t < n, currentBeta bb ba it t = beta) :
    intvTraj bb ba it gamma N init n = sirTraj beta gamma N init n := by
  induction n with
  | zero => rfl
  | succ n ih =>
      rw [intvTraj, sirTraj, h n (Nat.lt_succ_self n),
        ih fun t ht => h t (Nat.lt_succ_of_lt ht)]

/-! ## Claims -/

/-- C1: for every parameter set with `timesteps ≥ 1` and every index `t` of
the series returned by `sir_model` (and likewise `simulate_intervention`),
`susceptible[t] + infectious[t] + recovered[t] = N` exactly: the initial
state sums to `N` by construction `S0 = N - I0 - R0`, and each step moves
mass between compartments without creating or destroying it. -/
theorem conservation (N I0 R0 beta gamma : ℚ) (timesteps : ℤ)
    (bb ba : ℚ) (it : ℤ)
    (h : 1 ≤ timesteps) :
    (∀ l, sir_model N I0 R0 beta gamma timesteps = some l →
      ∀ r ∈ l, r.susceptible + r.infectious + r.recovered = N) ∧
    (∀ l, simulate_intervention N I0 R0 bb ba it gamma timesteps = some l →
      ∀ r ∈ l, r.susceptible + r.infectious + r.recovered = N) := by
  constructor
  · intro l hl r hr
    rw [sir_model, if_neg (by omega)] at hl
    obtain rfl := Option.some.injEq _ _ ▸ hl
    simp only [mkSeries, List.mem_map, List.mem_range] at hr
    obtain ⟨t, _, rfl⟩ := hr
    exact sirTraj_sum beta gamma N I0 R0 t
  · intro l hl r hr
    rw [simulate_intervention, if_neg (by omega)] at hl
    obtain rfl := Option.some.injEq _ _ ▸ hl
    simp only [mkSeries, List.mem_map, List.mem_range] at hr
    obtain ⟨t, _, rfl⟩ := hr
    exact intvTraj_sum bb ba it gamma N I0 R0 t

/-- Witness for C1 at a concrete parameter set. -/
theorem conservation_witness :
    (∀ l, sir_model 1000 1 0 (3/10) (1/10) 5 = some l →
      ∀ r ∈ l, r.susceptible + r.infectious + r.recovered = 1000) ∧
    (∀ l, simulate_intervention 1000 1 0 (3/10) (15/100) 2 (1/10) 5 = some l →
      ∀ r ∈ l, r.susceptible + r.infectious + r.recovered = 1000) :=
  conservation 1000 1 0 (3/10) (1/10) 5 (3/10) (15/100) 2 (by norm_num)

/-- C2: `simulate_intervention` with `beta_before = beta_after` produces a
time series identical, record for record, to `sir_model` with that same
rate and otherwise identical parameters (line 105 always selects the same
value, so the loop body is that of `sir_model`). -/
theorem no_intervention_equiv (N I0 R0 beta gamma : ℚ) (intervention_time : ℤ)
    (timesteps : ℤ) :
    simulate_intervention N I0 R0 beta beta intervention_time gamma timesteps =
      sir_model N I0 R0 beta gamma timesteps := by
  unfold simulate_intervention sir_model
  split
  · rfl
  · exact congrArg some (mkSeries_congr _ _ _ fun t _ =>
      intvTraj_eq_sirTraj beta beta beta intervention_time gamma N _ t
        fun t' _ => by unfold currentBeta; split <;> rfl)

/-- C3: `simulate_intervention` with `intervention_time ≤ 0` equals
`sir_model` run with `beta_after` alone, and with
`intervention_time ≥ timesteps - 1` it equals `sir_model` run with
`beta_before` alone: the loop indices are `0 … timesteps-2`, so in the
first case `t < intervention_time` never holds and in the second it always
does. -/
theorem boundary_intervention (N I0 R0 beta_before beta_after : ℚ)
    (intervention_time : ℤ) (gamma : ℚ) (timesteps : ℤ) :
    (intervention_time ≤ 0 →
      simulate_intervention N I0 R0 beta_before beta_after intervention_time
          gamma timesteps =
        sir_model N I0 R0 beta_after gamma timesteps) ∧
    (timesteps - 1 ≤ intervention_time →
      simulate_intervention N I0 R0 beta_before beta_after intervention_time
          gamma timesteps =
        sir_model N I0 R0 beta_before gamma timesteps) := by
  constructor
  · intro hle
    unfold simulate_intervention sir_model
    split
    · rfl
    · exact congrArg some (mkSeries_congr _ _ _ fun t _ =>
        intvTraj_eq_sirTraj beta_before beta_after beta_after intervention_time
          gamma N _ t fun t' _ => by
            unfold currentBeta
            rw [if_neg (by omega)])
  · intro hge
    unfold simulate_intervention sir_model
    split
    · rfl
    · rename_i hts
      refine congrArg some (mkSeries_congr _ _ _ fun t ht =>
        intvTraj_eq_sirTraj beta_before beta_after beta_before intervention_time
          gamma N _ t fun t' ht' => ?_)
      unfold currentBeta
      rw [if_pos (by omega)]

/-- Witness for C3: at `intervention_time = 0` the series equals the
`beta_after` run, and at `intervention_time = timesteps - 1 = 4` it equals
the `beta_before` run. -/
theorem boundary_intervention_witness :
    simulate_intervention 1000 1 0 (3/10) (15/100) 0 (1/10) 5 =
        sir_model 1000 1 0 (15/100) (1/10) 5 ∧
    simulate_intervention 1000 1 0 (3/10) (15/100) 4 (1/10) 5 =
        sir_model 1000 1 0 (3/10) (1/10) 5 :=
  ⟨(boundary_intervention 1000 1 0 (3/10) (15/100) 0 (1/10) 5).1 (by norm_num),
   (boundary_intervention 1000 1 0 (3/10) (15/100) 4 (1/10) 5).2 (by norm_num)⟩

/-- C4: with `timesteps ≥ 1`, the first record of the series returned by
`sir_model` (and `simulate_intervention`) has
`susceptible = N - I0 - R0`, `infectious = I0`, `recovered = R0`
(the initial state written at array index 0, emitted with `time = 1`). -/
theorem initial_condition (N I0 R0 beta gamma : ℚ) (timesteps : ℤ)
    (bb ba : ℚ) (it : ℤ)
    (h : 1 ≤ timesteps) :
    (∀ l, sir_model N I0 R0 beta gamma timesteps = some l →
      l[0]? = some { time := 1, susceptible := N - I0 - R0,
                     infectious := I0, recovered := R0 }) ∧
    (∀ l, simulate_intervention N I0 R0 bb ba it gamma timesteps = some l →
      l[0]? = some { time := 1, susceptible := N - I0 - R0,
                     infectious := I0, recovered := R0 }) := by
  have hpos : 0 < timesteps.toNat := by omega
  constructor
  · intro l hl
    rw [sir_model, if_neg (by omega)] at hl
    obtain rfl := Option.some.injEq _ _ ▸ hl
    rw [mkSeries_get _ _ 0 hpos]
    rfl
  · intro l hl
    rw [simulate_intervention, if_neg (by omega)] at hl
    obtain rfl := Option.some.injEq _ _ ▸ hl
    rw [mkSeries_get _ _ 0 hpos]
    rfl

/-- Witness for C4 at a concrete parameter set. -/
theorem initial_condition_witness :
    (∀ l, sir_model 1000 1 0 (3/10) (1/10) 5 = some l →
      l[0]? = some { time := 1, susceptible := 1000 - 1 - 0,
                     infectious := 1, recovered := 0 }) ∧
    (∀ l, simulate_intervention 1000 1 0 (3/10) (15/100) 2 (1/10) 5 = some l →
      l[0]? = some { time := 1, susceptible := 1000 - 1 - 0,
                     infectious := 1, recovered := 0 }) :=
  initial_condition 1000 1 0 (3/10) (1/10) 5 (3/10) (15/100) 2 (by norm_num)

/-- C5: with `timesteps ≥ 1`, the series returned by `sir_model` (and
`simulate_intervention`) has exactly `timesteps` records and its time
labels are `1, 2, …, timesteps` in order: record `t` (internal index,
0-based) is labeled `time = t + 1`. -/
theorem monotonic_time (N I0 R0 beta gamma : ℚ) (timesteps : ℤ)
    (bb ba : ℚ) (it : ℤ)
    (h : 1 ≤ timesteps) :
    (∀ l, sir_model N I0 R0 beta gamma timesteps = some l →
      (l.length : ℤ) = timesteps ∧
      l.map SIRRecord.time = (List.range timesteps.toNat).map fun (t : ℕ) => (t : ℤ) + 1) ∧
    (∀ l, simulate_intervention N I0 R0 bb ba it gamma timesteps = some l →
      (l.length : ℤ) = timesteps ∧
      l.map SIRRecord.time = (List.range timesteps.toNat).map fun (t : ℕ) => (t : ℤ) + 1) := by
  constructor
  · intro l hl
    rw [sir_model, if_neg (by omega)] at hl
    obtain rfl := Option.some.injEq _ _ ▸ hl
    refine ⟨by rw [mkSeries_length]; omega, ?_⟩
    simp [mkSeries]
  · intro l hl
    rw [simulate_intervention, if_neg (by omega)] at hl
    obtain rfl := Option.some.injEq _ _ ▸ hl
    refine ⟨by rw [mkSeries_length]; omega, ?_⟩
    simp [mkSeries]

/-- Witness for C5 at a concrete parameter set. -/
theorem monotonic_time_witness :
    (∀ l, sir_model 1000 1 0 (3/10) (1/10) 5 = some l →
      (l.length : ℤ) = 5 ∧
      l.map SIRRecord.time = (List.range (5 : ℤ).toNat).map fun (t : ℕ) => (t : ℤ) + 1) ∧
    (∀ l, simulate_intervention 1000 1 0 (3/10) (15/100) 2 (1/10) 5 = some l →
      (l.length : ℤ) = 5 ∧
      l.map SIRRecord.time = (List.range (5 : ℤ).toNat).map fun (t : ℕ) => (t : ℤ) + 1) :=
  monotonic_time 1000 1 0 (3/10) (1/10) 5 (3/10) (15/100) 2 (by norm_num)

/-- C6: in the series returned by `sir_model`, `recovered` is non-decreasing
from each record to the next whenever the infectious value at the earlier
record is non-negative and `gamma` is non-negative: the step adds
`new_recoveries = gamma * I[t] ≥ 0` to `R` (line 50). -/
theorem recovered_monotone (N I0 R0 beta gamma : ℚ) (timesteps : ℤ)
    (hg : 0 ≤ gamma) :
    ∀ l, sir_model N I0 R0 beta gamma timesteps = some l →
      ∀ t : ℕ, ∀ r r' : SIRRecord, l[t]? = some r → l[t + 1]? = some r' →
        0 ≤ r.infectious → r.recovered ≤ r'.recovered := by
  intro l hl t r r' hr hr' hI
  rw [sir_model] at hl
  split at hl
  · exact absurd hl (by simp)
  · obtain rfl := Option.some.injEq _ _ ▸ hl
    have ht1 : t + 1 < timesteps.toNat := by
      by_contra hcon
      rw [List.getElem?_eq_none] at hr'
      · exact absurd hr' (by simp)
      · rw [mkSeries_length]; omega
    rw [mkSeries_get _ _ t (by omega)] at hr
    rw [mkSeries_get _ _ (t + 1) ht1] at hr'
    obtain rfl := Option.some.injEq _ _ ▸ hr
    obtain rfl := Option.some.injEq _ _ ▸ hr'
    simp only at hI ⊢
    rw [sirTraj, sirStep]
    simp only
    have : 0 ≤ gamma * (sirTraj beta gamma N (initState N I0 R0) t).I :=
      mul_nonneg hg hI
    linarith

/-- Witness for C6: the first step of a concrete run with `beta = 0`,
`gamma = 1/10` has non-decreasing `recovered`. -/
theorem recovered_monotone_witness :
    ({ time := 1, susceptible := 999, infectious := 1, recovered := 0 } :
        SIRRecord).recovered ≤
      ({ time := 2, susceptible := 999, infectious := 9/10, recovered := 1/10 } :
        SIRRecord).recovered :=
  recovered_monotone 1000 1 0 0 (1/10) 2 (by norm_num)
    (mkSeries (2 : ℤ).toNat (sirTraj 0 (1/10) 1000 (initState 1000 1 0)))
    rfl 0
    { time := 1, susceptible := 999, infectious := 1, recovered := 0 }
    { time := 2, susceptible := 999, infectious := 9/10, recovered := 1/10 }
    (by rw [mkSeries_get _ _ 0 (by norm_num)]
        norm_num [sirTraj, initState])
    (by rw [mkSeries_get _ _ 1 (by norm_num)]
        norm_num [sirTraj, sirStep, initState])
    (by norm_num)

/-- C7: for `N = 1000`, `I0 = 1`, `R0 = 0`, `beta = 0`, `gamma = 1/10`,
`timesteps = 10`, the series returned by `sir_model` has
`infectious[t+1] = infectious[t] * (1 - 1/10)` at every step and
`susceptible = 999 = N - I0` at every one of the 10 records: with
`beta = 0` the `new_infections` term vanishes. -/
theorem scenario_B :
    ∀ l, sir_model 1000 1 0 0 (1/10) 10 = some l →
      (∀ t : ℕ, ∀ r r' : SIRRecord, l[t]? = some r → l[t + 1]? = some r' →
        r'.infectious = r.infectious * (1 - 1/10)) ∧
      (∀ r ∈ l, r.susceptible = 999) := by
  intro l hl
  rw [sir_model, if_neg (by omega)] at hl
  obtain rfl := Option.some.injEq _ _ ▸ hl
  constructor
  · intro t r r' hr hr'
    have ht1 : t + 1 < (10 : ℤ).toNat := by
      by_contra hcon
      rw [List.getElem?_eq_none] at hr'
      · exact absurd hr' (by simp)
      · rw [mkSeries_length]; omega
    rw [mkSeries_get _ _ t (by omega)] at hr
    rw [mkSeries_get _ _ (t + 1) ht1] at hr'
    obtain rfl := Option.some.injEq _ _ ▸ hr
    obtain rfl := Option.some.injEq _ _ ▸ hr'
    simp only
    rw [sirTraj, sirStep]
    simp only
    ring
  · have hS : ∀ t : ℕ,
        (sirTraj 0 (1/10) 1000 (initState 1000 1 0) t).S = 999 := by
      intro t
      induction t with
      | zero => norm_num [sirTraj, initState]
      | succ t ih => rw [sirTraj, sirStep]; simp only; rw [ih]; ring
    intro r hr
    simp only [mkSeries, List.mem_map, List.mem_range] at hr
    obtain ⟨t, _, rfl⟩ := hr
    exact hS t

/-- Witness for C7: the decay recurrence at the first step, and the
susceptible value of the first record. -/
theorem scenario_B_witness :
    (({ time := 2, susceptible := 999, infectious := 9/10, recovered := 1/10 } :
        SIRRecord).infectious =
      ({ time := 1, susceptible := 999, infectious := 1, recovered := 0 } :
        SIRRecord).infectious * (1 - 1/10)) ∧
    ({ time := 1, susceptible := 999, infectious := 1, recovered := 0 } :
        SIRRecord).susceptible = 999 :=
  ⟨(scenario_B
      (mkSeries (10 : ℤ).toNat (sirTraj 0 (1/10) 1000 (initState 1000 1 0)))
      rfl).1 0
    { time := 1, susceptible := 999, infectious := 1, recovered := 0 }
    { time := 2, susceptible := 999, infectious := 9/10, recovered := 1/10 }
    (by rw [mkSeries_get _ _ 0 (by norm_num)]
        norm_num [sirTraj, initState])
    (by rw [mkSeries_get _ _ 1 (by norm_num)]
        norm_num [sirTraj, sirStep, initState]),
   (scenario_B
      (mkSeries (10 : ℤ).toNat (sirTraj 0 (1/10) 1000 (initState 1000 1 0)))
      rfl).2
    { time := 1, susceptible := 999, infectious := 1, recovered := 0 }
    (by simp only [mkSeries, List.mem_map, List.mem_range]
        refine ⟨0, by norm_num, ?_⟩
        norm_num [sirTraj, initState])⟩

/-- C8: with `timesteps < 1`, `sir_model` and `simulate_intervention` fail
and produce no output series (in the source, `np.zeros` rejects a negative
length and the write `S[0] = S0` is out of bounds for length 0; the
embedding returns `none` there). -/
theorem invalid_timesteps (N I0 R0 beta gamma bb ba : ℚ) (it : ℤ)
    (timesteps : ℤ) (h : timesteps < 1) :
    sir_model N I0 R0 beta gamma timesteps = none ∧
    simulate_intervention N I0 R0 bb ba it gamma timesteps = none := by
  rw [sir_model, simulate_intervention]
  exact ⟨if_pos h, if_pos h⟩

/-- Witness for C8 at `timesteps = 0`. -/
theorem invalid_timesteps_witness :
    sir_model 1000 1 0 (3/10) (1/10) 0 = none ∧
    simulate_intervention 1000 1 0 (3/10) (15/100) 40 (1/10) 0 = none :=
  invalid_timesteps 1000 1 0 (3/10) (1/10) (3/10) (15/100) 40 0 (by norm_num)

/-- C9: for every non-negative `intervention_time`, the record of
`simulate_intervention` at every internal index
`t ≤ min(intervention_time, timesteps - 1)` equals the corresponding record
of `sir_model` run with `beta_before`: step `t'` uses `beta_before` for all
`t' < intervention_time`, so the intervention has no effect at or before the
intervention time. -/
theorem intervention_prefix (N I0 R0 beta_before beta_after : ℚ)
    (intervention_time : ℤ) (gamma : ℚ) (timesteps : ℤ) (t : ℕ)
    (_hit : 0 ≤ intervention_time)
    (ht : (t : ℤ) ≤ min intervention_time (timesteps - 1)) :
    (simulate_intervention N I0 R0 beta_before beta_after intervention_time
        gamma timesteps).map (fun l => l[t]?) =
      (sir_model N I0 R0 beta_before gamma timesteps).map (fun l => l[t]?) := by
  have hT : 1 ≤ timesteps := by
    have := le_min_iff.mp ht
    omega
  rw [simulate_intervention, sir_model, if_neg (by omega), if_neg (by omega)]
  simp only [Option.map_some']
  have htlt : t < timesteps.toNat := by
    have := le_min_iff.mp ht
    omega
  rw [mkSeries_get _ _ t htlt, mkSeries_get _ _ t htlt,
    intvTraj_eq_sirTraj beta_before beta_after beta_before intervention_time
      gamma N _ t]
  intro t' ht'
  have : (t' : ℤ) < intervention_time := by
    have := le_min_iff.mp ht
    omega
  unfold currentBeta
  rw [if_pos this]

/-- Witness for C9 at `intervention_time = 2`, `timesteps = 5`, index `t = 2`. -/
theorem intervention_prefix_witness :
    (simulate_intervention 1000 1 0 (3/10) (15/100) 2 (1/10) 5).map
        (fun l => l[2]?) =
      (sir_model 1000 1 0 (3/10) (1/10) 5).map (fun l => l[2]?) :=
  intervention_prefix 1000 1 0 (3/10) (15/100) 2 (1/10) 5 2 (by norm_num)
    (by norm_num)

/-- Inductive non-negativity of the three compartments along `sir_model`'s
trajectory, under the caller-sanity ranges: `N > 0`, `0 ≤ I0`, `0 ≤ R0`,
`I0 + R0 ≤ N`, `beta ∈ [0,1]`, `gamma ∈ [0,1]`. -/
lemma sirTraj_nonneg (N I0 R0 beta gamma : ℚ)
    (hN : 0 < N) (hI0 : 0 ≤ I0) (hR0 : 0 ≤ R0) (hIR : I0 + R0 ≤ N)
    (hb0 : 0 ≤ beta) (hb1 : beta ≤ 1) (hg0 : 0 ≤ gamma) (hg1 : gamma ≤ 1)
    (t : ℕ) :
    0 ≤ (sirTraj beta gamma N (initState N I0 R0) t).S ∧
    0 ≤ (sirTraj beta gamma N (initState N I0 R0) t).I ∧
    0 ≤ (sirTraj beta gamma N (initState N I0 R0) t).R := by
  induction t with
  | zero =>
      refine ⟨?_, hI0, hR0⟩
      simp only [sirTraj, initState]
      linarith
  | succ t ih =>
      obtain ⟨hS, hI, hR⟩ := ih
      have hsum := sirTraj_sum beta gamma N I0 R0 t
      set s := sirTraj beta gamma N (initState N I0 R0) t with hs
      have hIleN : s.I ≤ N := by linarith
      have hSleN : s.S ≤ N := by linarith
      rw [sirTraj, sirStep, ← hs]
      refine ⟨?_, ?_, ?_⟩
      · simp only
        have hfac : beta * s.I / N ≤ 1 := by
          rw [div_le_one hN]
          nlinarith
        have heq : s.S - beta * s.S * s.I / N = s.S * (1 - beta * s.I / N) := by
          field_simp
          ring
        rw [heq]
        have : 0 ≤ 1 - beta * s.I / N := by linarith
        exact mul_nonneg hS this
      · simp only
        have heq : s.I + beta * s.S * s.I / N - gamma * s.I =
            s.I * (1 + beta * s.S / N - gamma) := by
          field_simp
          ring
        rw [heq]
        have h1 : 0 ≤ beta * s.S / N := by positivity
        have : 0 ≤ 1 + beta * s.S / N - gamma := by linarith
        exact mul_nonneg hI this
      · simp only
        have : 0 ≤ gamma * s.I := mul_nonneg hg0 hI
        linarith

/-- C10: with `N > 0`, `0 ≤ I0`, `0 ≤ R0`, `I0 + R0 ≤ N`, `beta ∈ [0,1]`
and `gamma ∈ [0,1]`, every record of the series returned by `sir_model`
has all three compartment values non-negative and at most `N`: the step
preserves non-negativity inductively (`S` is scaled by `1 - beta·I/N ≥ 0`,
`I` by `1 + beta·S/N - gamma ≥ 0`, `R` only grows), and conservation then
bounds each compartment by `N`. -/
theorem compartment_bounds (N I0 R0 beta gamma : ℚ) (timesteps : ℤ)
    (hN : 0 < N) (hI0 : 0 ≤ I0) (hR0 : 0 ≤ R0) (hIR : I0 + R0 ≤ N)
    (hb0 : 0 ≤ beta) (hb1 : beta ≤ 1) (hg0 : 0 ≤ gamma) (hg1 : gamma ≤ 1) :
    ∀ l, sir_model N I0 R0 beta gamma timesteps = some l →
      ∀ r ∈ l,
        0 ≤ r.susceptible ∧ r.susceptible ≤ N ∧
        0 ≤ r.infectious ∧ r.infectious ≤ N ∧
        0 ≤ r.recovered ∧ r.recovered ≤ N := by
  intro l hl r hr
  rw [sir_model] at hl
  split at hl
  · exact absurd hl (by simp)
  · obtain rfl := Option.some.injEq _ _ ▸ hl
    simp only [mkSeries, List.mem_map, List.mem_range] at hr
    obtain ⟨t, _, rfl⟩ := hr
    obtain ⟨hS, hI, hR⟩ :=
      sirTraj_nonneg N I0 R0 beta gamma hN hI0 hR0 hIR hb0 hb1 hg0 hg1 t
    have hsum := sirTraj_sum beta gamma N I0 R0 t
    exact ⟨hS, by linarith, hI, by linarith, hR, by linarith⟩

/-- Witness for C10 at a concrete parameter set
(`N = 1000`, `I0 = 1`, `R0 = 0`, `beta = 3/10`, `gamma = 1/10`,
`timesteps = 1`, the single initial record). -/
theorem compartment_bounds_witness :
    0 ≤ ({ time := 1, susceptible := 999, infectious := 1, recovered := 0 } :
        SIRRecord).susceptible ∧
    ({ time := 1, susceptible := 999, infectious := 1, recovered := 0 } :
        SIRRecord).susceptible ≤ 1000 ∧
    0 ≤ ({ time := 1, susceptible := 999, infectious := 1, recovered := 0 } :
        SIRRecord).infectious ∧
    ({ time := 1, susceptible := 999, infectious := 1, recovered := 0 } :
        SIRRecord).infectious ≤ 1000 ∧
    0 ≤ ({ time := 1, susceptible := 999, infectious := 1, recovered := 0 } :
        SIRRecord).recovered ∧
    ({ time := 1, susceptible := 999, infectious := 1, recovered := 0 } :
        SIRRecord).recovered ≤ 1000 :=
  compartment_bounds 1000 1 0 (3/10) (1/10) 1 (by norm_num) (by norm_num)
    (by norm_num) (by norm_num) (by norm_num) (by norm_num) (by norm_num)
    (by norm_num)
    (mkSeries (1 : ℤ).toNat (sirTraj (3/10) (1/10) 1000 (initState 1000 1 0)))
    rfl
    { time := 1, susceptible := 999, infectious := 1, recovered := 0 }
    (by simp only [mkSeries, List.mem_map, List.mem_range]
        refine ⟨0, by norm_num, ?_⟩
        norm_num [sirTraj, initState])
